import Mathlib

/-!
Verification of the trendspy adaptive admission-control core.

Shallow embedding of the algorithmic components of the repository:
`AdaptiveRateLimiter` (src/trendspy/rate_limiter.py), `DegradationManager`
(src/trendspy/degradation_manager.py), `QuotaAnalyzer`
(src/trendspy/quota_analyzer.py), `ConfigTuner` (src/trendspy/config_tuner.py)
and `MetricsCollector` (src/trendspy/metrics.py).

Python float arithmetic is modelled with exact rationals (ℚ); timestamps are
rationals (seconds).  Waiting is modelled by returning the total number of
seconds the call would sleep, together with the successor state; the call is
treated as instantaneous apart from those sleeps.
-/

namespace Trendspy

/-- State of `AdaptiveRateLimiter` (rate_limiter.py).  The four configuration
fields are set by `__init__` and never written afterwards. -/
structure RateLimiterState where
  requests_per_hour : Nat
  base_delay : ℚ
  emergency_threshold : Nat
  emergency_multiplier : ℚ
  request_times : List ℚ
  consecutive_failures : Nat
  emergency_mode : Bool
  last_request_time : ℚ
  delay_multiplier : ℚ
  deriving DecidableEq, Repr

/-- `AdaptiveRateLimiter.__init__`. -/
def initLimiter (rph : Nat) (bd : ℚ) (eth : Nat) (emult : ℚ) : RateLimiterState :=
  { requests_per_hour := rph
    base_delay := bd
    emergency_threshold := eth
    emergency_multiplier := emult
    request_times := []
    consecutive_failures := 0
    emergency_mode := false
    last_request_time := 0
    delay_multiplier := 1 }

/-- `AdaptiveRateLimiter.record_failure`: increments the failure counter and
escalates `delay_multiplier` (1st failure: 1.5, 2nd: 2.0, 3rd and not yet in
emergency mode: emergency mode with 3.0, otherwise unchanged). -/
def record_failure (s : RateLimiterState) : RateLimiterState :=
  let cf := s.consecutive_failures + 1
  if cf = 1 then
    { s with consecutive_failures := cf, delay_multiplier := 3/2 }
  else if cf = 2 then
    { s with consecutive_failures := cf, delay_multiplier := 2 }
  else if 3 ≤ cf ∧ s.emergency_mode = false then
    { s with consecutive_failures := cf, emergency_mode := true, delay_multiplier := 3 }
  else
    { s with consecutive_failures := cf }

/-- `AdaptiveRateLimiter.record_success`: clears the failure counter, exits
emergency mode, and decays `delay_multiplier` by the factor 0.8 with floor 1.0
(only when it is above 1.0). -/
def record_success (s : RateLimiterState) : RateLimiterState :=
  let s1 := { s with consecutive_failures := 0, emergency_mode := false }
  if 1 < s.delay_multiplier then
    { s1 with delay_multiplier := max 1 (s.delay_multiplier * (4/5)) }
  else s1

/-- `AdaptiveRateLimiter.should_circuit_break`: reads the state only. -/
def should_circuit_break (s : RateLimiterState) : Bool :=
  decide (s.emergency_threshold * 2 ≤ s.consecutive_failures)

/-- `AdaptiveRateLimiter.reset`: clears failures, emergency mode, the delay
multiplier and the sliding window.  Note the source does not touch
`last_request_time`. -/
def resetLimiter (s : RateLimiterState) : RateLimiterState :=
  { s with consecutive_failures := 0
           emergency_mode := false
           delay_multiplier := 1
           request_times := [] }

/-- The effective pacing delay computed inside `wait_if_needed`, with the
jitter draw `j` passed in explicitly (the source draws it from
`random.uniform`). -/
def effectiveDelay (s : RateLimiterState) (j : ℚ) : ℚ :=
  s.base_delay * s.delay_multiplier *
    (if s.emergency_mode then s.emergency_multiplier else 1) * j

/-- The sleep performed by the minimum-spacing check of `wait_if_needed` when
entered at time `t` with jitter draw `j`. -/
def pacingWait (s : RateLimiterState) (t j : ℚ) : ℚ :=
  if 0 < s.last_request_time ∧ t - s.last_request_time < effectiveDelay s j then
    effectiveDelay s j - (t - s.last_request_time)
  else 0

/-- The eviction loop of `_enforce_hourly_limit`: pops entries older than one
hour from the front of the window. -/
def pruneWindow (w : List ℚ) (t : ℚ) : List ℚ :=
  w.dropWhile (fun x => decide (x < t - 3600))

/-- The capacity wait of `_enforce_hourly_limit`: if the pruned window is at
capacity, sleep until the oldest entry ages out, plus one second.  The source
indexes `request_times[0]`, which raises on an empty deque; that dead branch
(reachable only with `requests_per_hour = 0`) is modelled as a zero wait. -/
def hourlyWait (rph : Nat) (t : ℚ) (w : List ℚ) : ℚ :=
  if rph ≤ w.length then
    match w.head? with
    | some oldest => if 0 < oldest + 3600 - t then oldest + 3600 - t + 1 else 0
    | none => 0
  else 0

/-- `deque(maxlen := m)` append: evicts from the front when over capacity. -/
def pushBounded (w : List ℚ) (x : ℚ) (m : Nat) : List ℚ :=
  let w2 := w ++ [x]
  if m < w2.length then w2.drop (w2.length - m) else w2

/-- `AdaptiveRateLimiter.wait_if_needed` entered at time `t` with jitter draw
`j`: returns the total seconds slept and the successor state.  The recorded
request timestamp is the entry time plus the time slept. -/
def wait_if_needed (s : RateLimiterState) (t j : ℚ) : ℚ × RateLimiterState :=
  let w1 := pacingWait s t j
  let pruned := pruneWindow s.request_times t
  let w2 := hourlyWait s.requests_per_hour t pruned
  let done := t + w1 + w2
  (w1 + w2,
   { s with last_request_time := done
            request_times := pushBounded pruned done s.requests_per_hour })

/-- A public rate-limiter operation.  `circuitCheck` and `stats` only read
state in the source; `wait t j` is `wait_if_needed` entered at time `t` with
jitter draw `j`. -/
inductive LimiterOp where
  | wait (t j : ℚ)
  | success
  | failure
  | resetOp
  | circuitCheck
  | stats
  deriving DecidableEq

/-- Apply one public operation to the limiter state. -/
def applyOp (s : RateLimiterState) : LimiterOp → RateLimiterState
  | .wait t j => (wait_if_needed s t j).2
  | .success => record_success s
  | .failure => record_failure s
  | .resetOp => resetLimiter s
  | .circuitCheck => s
  | .stats => s

/-- The limiter state after any sequence of public operations from
construction. -/
def limiterRun (rph : Nat) (bd : ℚ) (eth : Nat) (emult : ℚ)
    (ops : List LimiterOp) : RateLimiterState :=
  ops.foldl applyOp (initLimiter rph bd eth emult)

/-- The claimed state invariant of the rate limiter. -/
def limInv (s : RateLimiterState) : Prop :=
  1 ≤ s.delay_multiplier ∧ (s.emergency_mode = true → 3 ≤ s.delay_multiplier)

/-- Inductive strengthening: in emergency mode at least three consecutive
failures have been recorded. -/
def limInvStrong (s : RateLimiterState) : Prop :=
  limInv s ∧ (s.emergency_mode = true → 3 ≤ s.consecutive_failures)

/-- Health states of `DegradationManager` (degradation_manager.py). -/
inductive HealthState where
  | healthy
  | degraded_minor
  | degraded_major
  | recovery
  deriving DecidableEq, Repr

/-- Keyword priority levels (degradation_manager.py). -/
inductive Priority where
  | low
  | medium
  | high
  deriving DecidableEq, Repr

/-- State of `DegradationManager`; the three thresholds are configuration
set by `__init__` and never written afterwards. -/
structure DegradationState where
  minor_threshold : Nat
  major_threshold : Nat
  recovery_successes : Nat
  health_state : HealthState
  consecutive_429s : Nat
  consecutive_successes : Nat
  deriving DecidableEq, Repr

/-- `DegradationManager.__init__`. -/
def initDM (m M r : Nat) : DegradationState :=
  { minor_threshold := m
    major_threshold := M
    recovery_successes := r
    health_state := .healthy
    consecutive_429s := 0
    consecutive_successes := 0 }

/-- `DegradationManager.update_health`.  On a 429 the counter rises and the
state degrades by thresholds; on a success the success counter rises, the 429
counter is chipped by one (floored at 0, which ℕ subtraction gives directly),
and once `recovery_successes` consecutive successes accumulate a non-healthy
state moves to RECOVERY, with full promotion to HEALTHY (and a zeroed 429
counter) at twice that many. -/
def update_health (s : DegradationState) (got_429 : Bool) : DegradationState :=
  if got_429 then
    let c := s.consecutive_429s + 1
    let st :=
      if s.major_threshold ≤ c then HealthState.degraded_major
      else if s.minor_threshold ≤ c then HealthState.degraded_minor
      else s.health_state
    { s with consecutive_429s := c, consecutive_successes := 0, health_state := st }
  else
    let cs := s.consecutive_successes + 1
    let c := s.consecutive_429s - 1
    if s.recovery_successes ≤ cs then
      if s.recovery_successes * 2 ≤ cs then
        { s with consecutive_successes := cs, consecutive_429s := 0,
                 health_state := .healthy }
      else
        { s with consecutive_successes := cs, consecutive_429s := c,
                 health_state :=
                   if s.health_state ≠ .healthy then .recovery else s.health_state }
    else
      { s with consecutive_successes := cs, consecutive_429s := c }

/-- `DegradationManager.should_process_keyword`. -/
def should_process_keyword (s : DegradationState) (p : Priority) : Bool :=
  match s.health_state with
  | .healthy => true
  | .recovery => true
  | .degraded_minor => decide (p = .high) || decide (p = .medium)
  | .degraded_major => decide (p = .high)

/-- `DegradationManager.reset`. -/
def resetDM (s : DegradationState) : DegradationState :=
  { s with health_state := .healthy, consecutive_429s := 0, consecutive_successes := 0 }

/-- A run of the degradation manager over a sequence of outcome events
(`true` = got a 429), starting from the freshly constructed state. -/
def dmRun (m M r : Nat) (events : List Bool) : DegradationState :=
  events.foldl update_health (initDM m M r)

/-- The admission table of the specification, phrased on the health state. -/
def admitTable (h : HealthState) (p : Priority) : Bool :=
  match h with
  | .healthy => true
  | .recovery => true
  | .degraded_minor => decide (p = .high) || decide (p = .medium)
  | .degraded_major => decide (p = .high)

/-- A state of the degradation manager in one of the two degraded levels. -/
def dmDegraded (s : DegradationState) : Prop :=
  s.health_state = .degraded_minor ∨ s.health_state = .degraded_major

instance (s : DegradationState) : Decidable (dmDegraded s) := by
  unfold dmDegraded; infer_instance

/-- A success event, as a one-argument step. -/
def succStep (s : DegradationState) : DegradationState := update_health s false

/-- Ascending insertion, modelling one step of Python `sorted`. -/
def insertSorted (x : ℚ) : List ℚ → List ℚ
  | [] => [x]
  | y :: ys => if x ≤ y then x :: y :: ys else y :: insertSorted x ys

/-- Ascending sort, modelling Python `sorted` on rationals. -/
def sortQ : List ℚ → List ℚ
  | [] => []
  | x :: xs => insertSorted x (sortQ xs)

/-- The delta computation of `QuotaAnalyzer.detect_quota_window`
(quota_analyzer.py): sorted success timestamps, consecutive differences
(`np.diff`), keeping only deltas under one hour
(`deltas = deltas[deltas < 3600]`). -/
def filteredDeltas (success_timestamps : List ℚ) : List ℚ :=
  let timestamps := sortQ success_timestamps
  (List.zipWith (fun a b => b - a) timestamps timestamps.tail).filter
    (fun x => decide (x < 3600))

/-- Equal-width bin index used by `np.histogram(deltas, bins=20)`: values fall
in `[edge i, edge (i+1))`, with the rightmost edge included in the last bin. -/
def binIdx (lo width x : ℚ) : Nat := min 19 (Int.toNat ⌊(x - lo) / width⌋)

/-- The 20 bin counts of `np.histogram(deltas, bins=20)` with edges derived
from `lo` and `width`. -/
def histCounts (lo width : ℚ) (d : List ℚ) : List Nat :=
  (List.range 20).map (fun i => (d.filter (fun x => decide (binIdx lo width x = i))).length)

/-- Index scan for `np.argmax`: strict improvement keeps the first maximum. -/
def argmaxAux : List Nat → Nat → Nat → Nat → Nat
  | [], _, best_i, _ => best_i
  | x :: xs, i, best_i, best_v =>
    if best_v < x then argmaxAux xs (i + 1) i x
    else argmaxAux xs (i + 1) best_i best_v

/-- `np.argmax`: index of the first maximal entry (0 on the empty list). -/
def argmaxFirst : List Nat → Nat
  | [] => 0
  | x :: xs => argmaxAux xs 1 0 x

/-- `QuotaAnalyzer.detect_quota_window`: needs at least 10 recorded successes
and at least 5 consecutive-success deltas under one hour; then histograms the
deltas into 20 equal-width bins (numpy widens a degenerate range by 0.5 on
each side) and returns the center of the first most populated bin. -/
def detect_quota_window (success_timestamps : List ℚ) : Option ℚ :=
  if success_timestamps.length < 10 then none
  else
    let deltas := filteredDeltas success_timestamps
    if deltas.length < 5 then none
    else
      let mn := deltas.foldl min (deltas.headD 0)
      let mx := deltas.foldl max (deltas.headD 0)
      let first_edge := if mn = mx then mn - 1/2 else mn
      let last_edge := if mn = mx then mx + 1/2 else mx
      let width := (last_edge - first_edge) / 20
      let hist := histCounts first_edge width deltas
      let modal_index := argmaxFirst hist
      some (first_edge + width * (modal_index : ℚ) + width / 2)

/-- `MetricsCollector.get_p95_response_time` (metrics.py).  The source
computes `index = int(len(sorted_times) * 0.95)`; for every window size `n`
the double rounding of `n * 0.95` (whose float value is slightly below
19n/20) still truncates to `⌊19n/20⌋`, so the index is modelled exactly as
`n * 19 / 20` in ℕ. -/
def get_p95_response_time (response_times : List ℚ) : ℚ :=
  if response_times.isEmpty then 0
  else
    let sorted_times := sortQ response_times
    let index := sorted_times.length * 19 / 20
    if index < sorted_times.length then sorted_times.getD index 0
    else sorted_times.getLastD 0

/-- The `k`-th smallest element of a list (1-based), the notion the spec's
nearest-rank description refers to. -/
def kthSmallest (l : List ℚ) (k : Nat) : ℚ := (sortQ l).getD (k - 1) 0

/-- One recorded session of `ConfigTuner` (config_tuner.py). -/
structure TuningRecord where
  base_delay : ℚ
  requests_per_hour : ℚ
  success_rate : ℚ
  response_time : ℚ
  requests_total : ℚ
  deriving DecidableEq, Repr

/-- `ConfigTuner.auto_tune`: needs at least 5 recorded sessions; averages the
success rate over the last (up to) 10; recommends `base_delay + 2` when the
average is below 80, `max 5 (base_delay - 1)` when it is above 95 and the
most recent session's delay exceeds 5, and nothing otherwise.  Returns just
the recommended `base_delay`.  (`recent[-1]` is total here via a default that
is unreachable once the length guard has passed.) -/
def auto_tune (performance_history : List TuningRecord) : Option ℚ :=
  if performance_history.length < 5 then none
  else
    let recent := performance_history.drop (performance_history.length - 10)
    let avg_success := (recent.map TuningRecord.success_rate).sum / recent.length
    let current_delay := (recent.getLastD ⟨15, 150, 0, 0, 0⟩).base_delay
    if avg_success < 80 then some (current_delay + 2)
    else if 95 < avg_success ∧ 5 < current_delay then some (max 5 (current_delay - 1))
    else none

/-- Characterization of `n` consecutive `record_failure` calls from the
freshly constructed state. -/
lemma record_failure_iter (rph : Nat) (bd : ℚ) (eth : Nat) (emult : ℚ) (n : Nat) :
    (record_failure^[n] (initLimiter rph bd eth emult)).consecutive_failures = n ∧
    (record_failure^[n] (initLimiter rph bd eth emult)).emergency_mode = decide (3 ≤ n) ∧
    (record_failure^[n] (initLimiter rph bd eth emult)).delay_multiplier =
      (if n = 0 then 1 else if n = 1 then 3/2 else if n = 2 then 2 else 3) ∧
    (record_failure^[n] (initLimiter rph bd eth emult)).emergency_threshold = eth := by
  induction n with
  | zero => simp [initLimiter]
  | succ n ih =>
    obtain ⟨hcf, hem, hdm, heth⟩ := ih
    rw [Function.iterate_succ_apply']
    rcases Nat.lt_or_ge n 3 with h3 | h3
    · interval_cases n
      · simp [record_failure, initLimiter]
      · simp [record_failure, initLimiter]
      · simp [record_failure, initLimiter]
    · have hem3 : (record_failure^[n] (initLimiter rph bd eth emult)).emergency_mode = true := by
        rw [hem]; simp [h3]
      have hstep : record_failure (record_failure^[n] (initLimiter rph bd eth emult)) =
          { record_failure^[n] (initLimiter rph bd eth emult) with
            consecutive_failures := n + 1 } := by
        simp only [record_failure, hcf, hem3]
        have c1 : ¬ (n + 1 = 1) := by omega
        have c2 : ¬ (n + 1 = 2) := by omega
        have c3 : ¬ (3 ≤ n + 1 ∧ true = false) := by simp
        rw [if_neg c1, if_neg c2, if_neg c3]
      rw [hstep]
      have h0 : ¬ (n = 0) := by omega
      have h1 : ¬ (n = 1) := by omega
      have h2 : ¬ (n = 2) := by omega
      have hn1 : ¬ (n + 1 = 1) := by omega
      have hn2 : ¬ (n + 1 = 2) := by omega
      have h31 : (3:ℕ) ≤ n + 1 := by omega
      refine ⟨rfl, ?_, ?_, heth⟩
      · simp [hem3, h31]
      · simp only [hdm, h0, h1, h2, hn1, hn2, if_false, Nat.succ_ne_zero]

/-- Each public operation preserves the strengthened invariant. -/
lemma applyOp_pres (s : RateLimiterState) (op : LimiterOp)
    (h : limInvStrong s) : limInvStrong (applyOp s op) := by
  obtain ⟨⟨hdm, hem⟩, hcf⟩ := h
  cases op with
  | wait t j =>
    simp only [applyOp, wait_if_needed]
    exact ⟨⟨hdm, hem⟩, hcf⟩
  | success =>
    simp only [applyOp, record_success]
    split_ifs with h1
    · refine ⟨⟨le_max_left 1 _, ?_⟩, ?_⟩ <;> simp
    · exact ⟨⟨hdm, by simp⟩, by simp⟩
  | failure =>
    simp only [applyOp, record_failure]
    split_ifs with h1 h2 h3
    · have hemF : s.emergency_mode = false := by
        cases hx : s.emergency_mode
        · rfl
        · exact absurd (hcf hx) (by omega)
      refine ⟨⟨by norm_num, ?_⟩, ?_⟩ <;>
        · show s.emergency_mode = true → _
          rw [hemF]; intro hx; exact absurd hx (by simp)
    · have hemF : s.emergency_mode = false := by
        cases hx : s.emergency_mode
        · rfl
        · exact absurd (hcf hx) (by omega)
      refine ⟨⟨by norm_num, ?_⟩, ?_⟩ <;>
        · show s.emergency_mode = true → _
          rw [hemF]; intro hx; exact absurd hx (by simp)
    · refine ⟨⟨by norm_num, fun _ => le_refl 3⟩, fun _ => ?_⟩
      show 3 ≤ s.consecutive_failures + 1
      exact h3.1
    · exact ⟨⟨hdm, hem⟩, fun hx => Nat.le_succ_of_le (hcf hx)⟩
  | resetOp =>
    refine ⟨⟨le_refl 1, ?_⟩, ?_⟩ <;> simp [applyOp, resetLimiter]
  | circuitCheck => exact ⟨⟨hdm, hem⟩, hcf⟩
  | stats => exact ⟨⟨hdm, hem⟩, hcf⟩

/-- C5: after any sequence of public operations (waits, successes, failures,
resets, circuit-breaker checks, stats reads) from a freshly constructed
limiter, the state invariant holds: `delay_multiplier ≥ 1`, and in emergency
mode `delay_multiplier ≥ 3`. -/
theorem C5_limiter_invariant (rph : Nat) (bd : ℚ) (eth : Nat) (emult : ℚ)
    (ops : List LimiterOp) :
    limInv (limiterRun rph bd eth emult ops) := by
  suffices h : ∀ (l : List LimiterOp) (s : RateLimiterState),
      limInvStrong s → limInvStrong (l.foldl applyOp s) by
    exact (h ops (initLimiter rph bd eth emult)
      ⟨⟨by simp [initLimiter], by simp [initLimiter]⟩, by simp [initLimiter]⟩).1
  intro l
  induction l with
  | nil => intro s hs; exact hs
  | cons op l ih =>
    intro s hs
    rw [List.foldl_cons]
    exact ih (applyOp s op) (applyOp_pres s op hs)

/-- C10: on a freshly constructed limiter the first `wait_if_needed` call
sleeps zero seconds (no pacing wait, since `last_request_time = 0`, and no
hourly wait, since the window is empty) and its only state change is
recording the call time into the window and into `last_request_time`. -/
theorem C10_first_call (rph : Nat) (bd : ℚ) (eth : Nat) (emult : ℚ) (t j : ℚ)
    (hrph : 0 < rph) :
    (wait_if_needed (initLimiter rph bd eth emult) t j).1 = 0 ∧
    (wait_if_needed (initLimiter rph bd eth emult) t j).2 =
      { initLimiter rph bd eth emult with
        last_request_time := t, request_times := [t] } := by
  have hA : ¬ rph ≤ 0 := by omega
  have hB : ¬ rph < 1 := by omega
  unfold wait_if_needed pacingWait hourlyWait pruneWindow pushBounded initLimiter
  norm_num [hA, hB]

/-- Witness for C10 with `requests_per_hour = 200`, `base_delay = 15`,
first call at `t = 50` with jitter draw 1. -/
theorem C10_first_call_witness :
    0 < 200 ∧
    (wait_if_needed (initLimiter 200 15 5 3) 50 1).1 = 0 ∧
    (wait_if_needed (initLimiter 200 15 5 3) 50 1).2 =
      { initLimiter 200 15 5 3 with last_request_time := 50, request_times := [50] } :=
  ⟨by decide, (C10_first_call 200 15 5 3 50 1 (by decide)).1,
   (C10_first_call 200 15 5 3 50 1 (by decide)).2⟩

/-- C8 counterexample: `AdaptiveRateLimiter.reset` does not clear
`last_request_time`, so a reset limiter is observably different from a fresh
one.  Concretely (`base_delay = 15`): after one request at `t = 100` and a
`reset`, the next `wait_if_needed` at `t = 101` (jitter 1) sleeps 14 seconds,
while a fresh instance sleeps 0. -/
theorem C8_reset_counterexample :
    (wait_if_needed (initLimiter 200 15 5 3) 101 1).1 = 0 ∧
    (wait_if_needed
      (resetLimiter (wait_if_needed (initLimiter 200 15 5 3) 100 1).2) 101 1).1 = 14 ∧
    (0 : ℚ) ≠ 14 := by
  refine ⟨?_, ?_, by norm_num⟩
  · unfold wait_if_needed pacingWait hourlyWait pruneWindow initLimiter
    norm_num
  · unfold wait_if_needed pacingWait effectiveDelay hourlyWait pruneWindow
      pushBounded resetLimiter initLimiter
    norm_num

/-- State after `k` consecutive rejections from the fresh state. -/
lemma dm_reject_iter (m M r k : Nat) (hm : 0 < m) (hmM : m < M) :
    dmRun m M r (List.replicate k true) =
      { initDM m M r with
        consecutive_429s := k
        health_state :=
          if M ≤ k then .degraded_major
          else if m ≤ k then .degraded_minor
          else .healthy } := by
  induction k with
  | zero =>
    have h1 : ¬ M ≤ 0 := by omega
    have h2 : ¬ m ≤ 0 := by omega
    simp [dmRun, initDM, h1, h2]
  | succ k ih =>
    rw [List.replicate_succ', dmRun, List.foldl_append]
    rw [show List.foldl update_health (initDM m M r) (List.replicate k true)
          = dmRun m M r (List.replicate k true) from rfl, ih]
    simp only [List.foldl_cons, List.foldl_nil, update_health, if_true]
    rcases Nat.lt_or_ge k m with hk | hk
    · have hM : ¬ M ≤ k := by omega
      have hm' : ¬ m ≤ k := by omega
      rcases Nat.lt_or_ge (k + 1) m with hk1 | hk1
      · have hM1 : ¬ M ≤ k + 1 := by omega
        have hm1 : ¬ m ≤ k + 1 := by omega
        simp [hM, hm', hM1, hm1, initDM]
      · have hM1 : ¬ M ≤ k + 1 := by omega
        simp [hM, hm', hM1, hk1, initDM]
    · rcases Nat.lt_or_ge k M with hkM | hkM
      · have hM : ¬ M ≤ k := by omega
        rcases Nat.lt_or_ge (k + 1) M with hk1 | hk1
        · have hM1 : ¬ M ≤ k + 1 := by omega
          have hm1 : m ≤ k + 1 := by omega
          simp [hM, hk, hM1, hm1, initDM]
        · simp [hM, hk, hk1, initDM]
      · have h1 : M ≤ k + 1 := by omega
        simp [hkM, h1, initDM]

/-- C3: with thresholds `0 < m < M`, after `k` consecutive rejection updates
the health state is DEGRADED_MAJOR when `M ≤ k`, else DEGRADED_MINOR when
`m ≤ k`, else HEALTHY; and in every state `should_process_keyword` admits by
the table: HEALTHY/RECOVERY admit everything, DEGRADED_MINOR admits exactly
HIGH and MEDIUM, DEGRADED_MAJOR admits exactly HIGH. -/
theorem C3_degradation_thresholds (m M r k : Nat) (s : DegradationState) (p : Priority)
    (hm : 0 < m) (hmM : m < M) :
    (dmRun m M r (List.replicate k true)).health_state =
      (if M ≤ k then .degraded_major
       else if m ≤ k then .degraded_minor
       else .healthy) ∧
    (dmRun m M r (List.replicate k true)).consecutive_429s = k ∧
    should_process_keyword s p = admitTable s.health_state p ∧
    (admitTable .healthy p = true) ∧
    (admitTable .recovery p = true) ∧
    (admitTable .degraded_minor p = true ↔ (p = .high ∨ p = .medium)) ∧
    (admitTable .degraded_major p = true ↔ p = .high) := by
  rw [dm_reject_iter m M r k hm hmM]
  refine ⟨rfl, rfl, ?_, rfl, rfl, ?_, ?_⟩
  · cases h : s.health_state <;>
      simp [should_process_keyword, admitTable, h]
  · simp [admitTable]
  · simp [admitTable]

/-- Witness for C3 at `m = 5`, `M = 10`, `r = 3`, `k = 7`, a concrete state
in RECOVERY, and priority MEDIUM. -/
theorem C3_degradation_thresholds_witness :
    0 < 5 ∧ 5 < 10 ∧
    ((dmRun 5 10 3 (List.replicate 7 true)).health_state =
      (if 10 ≤ 7 then .degraded_major
       else if 5 ≤ 7 then .degraded_minor
       else .healthy) ∧
    (dmRun 5 10 3 (List.replicate 7 true)).consecutive_429s = 7 ∧
    should_process_keyword ⟨5, 10, 3, .recovery, 2, 1⟩ .medium =
      admitTable (DegradationState.mk 5 10 3 .recovery 2 1).health_state .medium ∧
    (admitTable .healthy .medium = true) ∧
    (admitTable .recovery .medium = true) ∧
    (admitTable .degraded_minor .medium = true ↔
      (Priority.medium = .high ∨ Priority.medium = .medium)) ∧
    (admitTable .degraded_major .medium = true ↔ Priority.medium = .high)) :=
  ⟨by decide, by decide,
   C3_degradation_thresholds 5 10 3 7 ⟨5, 10, 3, .recovery, 2, 1⟩ .medium
     (by decide) (by decide)⟩

/-- C8 (amended): for the Rate Limiter, `reset()` restores every state
component to its freshly-constructed value EXCEPT `last_request_time`, which
is preserved, so subsequent operations that do not consult
`last_request_time` behave as on a fresh instance while the next
`wait_if_needed` may still pace against the stale timestamp; the Degradation
Manager's `reset()` does restore the full fresh state. -/
theorem C8_reset_vs_fresh (s : RateLimiterState) (d : DegradationState) :
    resetLimiter s =
      { initLimiter s.requests_per_hour s.base_delay s.emergency_threshold
          s.emergency_multiplier with last_request_time := s.last_request_time } ∧
    resetDM d = initDM d.minor_threshold d.major_threshold d.recovery_successes := by
  exact ⟨rfl, rfl⟩

/-- A success always increments the success counter by exactly one. -/
lemma uh_success_cs (s : DegradationState) :
    (update_health s false).consecutive_successes = s.consecutive_successes + 1 := by
  unfold update_health
  simp only [Bool.false_eq_true, if_false]
  split_ifs <;> rfl

/-- `update_health` never writes the three configuration fields. -/
lemma uh_config (s : DegradationState) (b : Bool) :
    (update_health s b).minor_threshold = s.minor_threshold ∧
    (update_health s b).major_threshold = s.major_threshold ∧
    (update_health s b).recovery_successes = s.recovery_successes := by
  unfold update_health
  cases b
  · simp only [Bool.false_eq_true, if_false]
    split_ifs <;> exact ⟨rfl, rfl, rfl⟩
  · rw [if_pos rfl]
    exact ⟨rfl, rfl, rfl⟩

/-- The success that reaches twice `recovery_successes` promotes to HEALTHY
and zeroes the 429 counter. -/
lemma uh_promote (s : DegradationState)
    (h : s.recovery_successes * 2 ≤ s.consecutive_successes + 1) :
    update_health s false =
      { s with consecutive_successes := s.consecutive_successes + 1,
               consecutive_429s := 0, health_state := .healthy } := by
  have h1 : s.recovery_successes ≤ s.consecutive_successes + 1 := by omega
  unfold update_health
  simp only [Bool.false_eq_true, if_false]
  simp [h, h1]

/-- Any other success decrements the 429 counter by exactly one (ℕ
subtraction: already-zero stays zero). -/
lemma uh_nopromote (s : DegradationState)
    (h : ¬ s.recovery_successes * 2 ≤ s.consecutive_successes + 1) :
    (update_health s false).consecutive_429s = s.consecutive_429s - 1 := by
  unfold update_health
  simp only [Bool.false_eq_true, if_false]
  split_ifs <;> rfl

/-- Success counter and configuration after `j` iterated successes. -/
lemma succ_iter_cs (j : Nat) (s : DegradationState) :
    (succStep^[j] s).consecutive_successes = s.consecutive_successes + j ∧
    (succStep^[j] s).recovery_successes = s.recovery_successes := by
  induction j with
  | zero => simp
  | succ j ih =>
    rw [Function.iterate_succ_apply']
    refine ⟨?_, ?_⟩
    · rw [succStep, uh_success_cs, ih.1]; omega
    · rw [succStep, (uh_config _ false).2.2, ih.2]

/-- Health state along a run of successes that stays strictly below the
promotion threshold. -/
lemma succ_iter_state (j : Nat) (s : DegradationState)
    (hh : s.health_state ≠ .healthy)
    (hlt : s.consecutive_successes + j < s.recovery_successes * 2) :
    (succStep^[j] s).health_state =
      (if s.recovery_successes ≤ s.consecutive_successes + j ∧ 1 ≤ j
       then HealthState.recovery else s.health_state) := by
  induction j with
  | zero => simp
  | succ j ih =>
    have hlt' : s.consecutive_successes + j < s.recovery_successes * 2 := by omega
    have ihx := ih hlt'
    have hcs := (succ_iter_cs j s).1
    have hr := (succ_iter_cs j s).2
    rw [Function.iterate_succ_apply']
    have hnp : ¬ (succStep^[j] s).recovery_successes * 2 ≤
        (succStep^[j] s).consecutive_successes + 1 := by
      rw [hcs, hr]; omega
    rcases Nat.lt_or_ge ((succStep^[j] s).consecutive_successes + 1)
        (succStep^[j] s).recovery_successes with hlow | hmid
    · have hcond : ¬ (s.recovery_successes ≤ s.consecutive_successes + (j + 1)) := by
        rw [hcs, hr] at hlow; omega
      have hcondj : ¬ (s.recovery_successes ≤ s.consecutive_successes + j ∧ 1 ≤ j) := by
        rintro ⟨h1, -⟩; exact hcond (by omega)
      rw [succStep, update_health]
      simp only [Bool.false_eq_true, if_false]
      rw [if_neg (by omega : ¬ (succStep^[j] s).recovery_successes ≤
            (succStep^[j] s).consecutive_successes + 1)]
      simp only [ihx, hcondj, if_false]
      simp [hcond]
    · have hcond : s.recovery_successes ≤ s.consecutive_successes + (j + 1) := by
        rw [hcs, hr] at hmid; omega
      have hhj : (succStep^[j] s).health_state ≠ .healthy := by
        rw [ihx]
        split_ifs
        · simp
        · exact hh
      rw [succStep, update_health]
      simp only [Bool.false_eq_true, if_false]
      rw [if_pos hmid, if_neg hnp]
      simp [hhj, hcond]

/-- One step preserves "degraded implies success counter below
`recovery_successes`", for any state with a positive recovery threshold. -/
lemma uh_degraded_cs (s : DegradationState) (b : Bool)
    (hr : 0 < s.recovery_successes)
    (hdeg : dmDegraded (update_health s b)) :
    (update_health s b).consecutive_successes < s.recovery_successes := by
  cases b with
  | true =>
    have h0 : (update_health s true).consecutive_successes = 0 := by
      unfold update_health; rw [if_pos rfl]
    rw [h0]; exact hr
  | false =>
    unfold update_health at hdeg ⊢
    simp only [Bool.false_eq_true, if_false] at hdeg ⊢
    split_ifs at hdeg ⊢ with h1 h2 h3
    · simp [dmDegraded] at hdeg
    · simp [dmDegraded] at hdeg
    · have h3' : s.health_state = .healthy := not_not.mp h3
      simp [dmDegraded, h3'] at hdeg
    · show s.consecutive_successes + 1 < s.recovery_successes
      omega

/-- Along any event run from the fresh state, a degraded state has its
success counter strictly below `recovery_successes`, and the configuration
fields stay those of construction. -/
lemma dmRun_invariant (m M r : Nat) (ev : List Bool) (hr : 0 < r) :
    (dmRun m M r ev).recovery_successes = r ∧
    (dmDegraded (dmRun m M r ev) → (dmRun m M r ev).consecutive_successes < r) := by
  suffices h : ∀ (l : List Bool) (s : DegradationState),
      s.recovery_successes = r →
      (dmDegraded s → s.consecutive_successes < r) →
      (l.foldl update_health s).recovery_successes = r ∧
      (dmDegraded (l.foldl update_health s) →
        (l.foldl update_health s).consecutive_successes < r) by
    exact h ev (initDM m M r) rfl (by simp [initDM, dmDegraded])
  intro l
  induction l with
  | nil => intro s h1 h2; exact ⟨h1, h2⟩
  | cons b l ih =>
    intro s h1 h2
    rw [List.foldl_cons]
    refine ih (update_health s b) ?_ ?_
    · rw [(uh_config s b).2.2, h1]
    · intro hdeg
      have := uh_degraded_cs s b (by rw [h1]; exact hr) hdeg
      omega

/-- C4 (amended): a success update increments `consecutiveSuccesses` by 1;
it decrements `consecutive429s` by at most 1 (never below 0) EXCEPT when it
completes 2 × `recoverySuccesses` consecutive successes, in which case it
promotes to HEALTHY and resets `consecutive429s` to 0; a run of exactly
`recoverySuccesses` successes from a reachable degraded state yields RECOVERY
(not HEALTHY), and a run of 2 × `recoverySuccesses` successes yields HEALTHY
with `consecutive429s = 0`. -/
theorem C4_success_recovery (s : DegradationState) (m M r : Nat) (ev : List Bool)
    (hr : 0 < r) (hdeg : dmDegraded (dmRun m M r ev)) :
    ((update_health s false).consecutive_successes = s.consecutive_successes + 1) ∧
    (s.recovery_successes * 2 ≤ s.consecutive_successes + 1 →
      (update_health s false).consecutive_429s = 0 ∧
      (update_health s false).health_state = .healthy) ∧
    (¬ s.recovery_successes * 2 ≤ s.consecutive_successes + 1 →
      (update_health s false).consecutive_429s = s.consecutive_429s - 1) ∧
    (succStep^[r] (dmRun m M r ev)).health_state = .recovery ∧
    (succStep^[r * 2] (dmRun m M r ev)).health_state = .healthy ∧
    (succStep^[r * 2] (dmRun m M r ev)).consecutive_429s = 0 := by
  obtain ⟨hcfg, hinv⟩ := dmRun_invariant m M r ev hr
  have hcs0 := hinv hdeg
  have hh : (dmRun m M r ev).health_state ≠ .healthy := by
    rcases hdeg with h | h <;> simp [h]
  refine ⟨uh_success_cs s, ?_, ?_, ?_, ?_⟩
  · intro h
    rw [uh_promote s h]
    exact ⟨rfl, rfl⟩
  · intro h
    exact uh_nopromote s h
  · have := succ_iter_state r (dmRun m M r ev) hh (by rw [hcfg]; omega)
    rw [hcfg] at this
    rw [this, if_pos ⟨by omega, hr⟩]
  · have h2r : r * 2 = (r * 2 - 1) + 1 := by omega
    rw [h2r, Function.iterate_succ_apply']
    have hcs := (succ_iter_cs (r * 2 - 1) (dmRun m M r ev)).1
    have hrr := (succ_iter_cs (r * 2 - 1) (dmRun m M r ev)).2
    have hprom : (succStep^[r * 2 - 1] (dmRun m M r ev)).recovery_successes * 2 ≤
        (succStep^[r * 2 - 1] (dmRun m M r ev)).consecutive_successes + 1 := by
      rw [hcs, hrr, hcfg]; omega
    rw [succStep, uh_promote _ hprom]
    exact ⟨rfl, rfl⟩

/-- Witness for C4 at a concrete reachable degraded state: `m = 5`, `M = 10`,
`r = 3`, five consecutive rejections, probe state with counters 4 and 2. -/
theorem C4_success_recovery_witness :
    0 < 3 ∧ dmDegraded (dmRun 5 10 3 (List.replicate 5 true)) ∧
    (((update_health ⟨5, 10, 3, .degraded_minor, 4, 2⟩ false).consecutive_successes =
        (DegradationState.mk 5 10 3 .degraded_minor 4 2).consecutive_successes + 1) ∧
    ((DegradationState.mk 5 10 3 .degraded_minor 4 2).recovery_successes * 2 ≤
        (DegradationState.mk 5 10 3 .degraded_minor 4 2).consecutive_successes + 1 →
      (update_health ⟨5, 10, 3, .degraded_minor, 4, 2⟩ false).consecutive_429s = 0 ∧
      (update_health ⟨5, 10, 3, .degraded_minor, 4, 2⟩ false).health_state = .healthy) ∧
    (¬ (DegradationState.mk 5 10 3 .degraded_minor 4 2).recovery_successes * 2 ≤
        (DegradationState.mk 5 10 3 .degraded_minor 4 2).consecutive_successes + 1 →
      (update_health ⟨5, 10, 3, .degraded_minor, 4, 2⟩ false).consecutive_429s =
        (DegradationState.mk 5 10 3 .degraded_minor 4 2).consecutive_429s - 1) ∧
    (succStep^[3] (dmRun 5 10 3 (List.replicate 5 true))).health_state = .recovery ∧
    (succStep^[3 * 2] (dmRun 5 10 3 (List.replicate 5 true))).health_state = .healthy ∧
    (succStep^[3 * 2] (dmRun 5 10 3 (List.replicate 5 true))).consecutive_429s = 0) :=
  ⟨by decide, by decide,
   C4_success_recovery ⟨5, 10, 3, .degraded_minor, 4, 2⟩ 5 10 3
     (List.replicate 5 true) (by decide) (by decide)⟩

/-- C4 counterexample: at the reachable state obtained by ten rejections then
five successes (`m = 5`, `M = 10`, `r = 3`), the 429 counter stands at 5 and
the next success drops it to 0 — a decrement of 5, not of at most 1 — because
that success completes 2 × `recoverySuccesses` and promotion zeroes it. -/
theorem C4_counterexample :
    (dmRun 5 10 3 (List.replicate 10 true ++ List.replicate 5 false)).consecutive_429s = 5 ∧
    (update_health
      (dmRun 5 10 3 (List.replicate 10 true ++ List.replicate 5 false))
      false).consecutive_429s = 0 ∧
    ¬ ((dmRun 5 10 3 (List.replicate 10 true ++ List.replicate 5 false)).consecutive_429s ≤
       (update_health
         (dmRun 5 10 3 (List.replicate 10 true ++ List.replicate 5 false))
         false).consecutive_429s + 1) := by
  refine ⟨by decide, by decide, by decide⟩

/-- C1: starting from the baseline state, the first three `record_failure`
calls set `delay_multiplier` to 1.5, 2.0 and 3.0 (the third also setting
`emergency_mode`); later calls leave the multiplier and emergency flag at the
plateau while still incrementing `consecutive_failures`, and `emergency_mode`
stays true until a `record_success` call (which clears it). -/
theorem C1_failure_escalation (rph : Nat) (bd : ℚ) (eth : Nat) (emult : ℚ) (n : Nat) :
    (record_failure^[n] (initLimiter rph bd eth emult)).consecutive_failures = n ∧
    ((record_failure^[n] (initLimiter rph bd eth emult)).emergency_mode = true ↔ 3 ≤ n) ∧
    (record_failure^[n] (initLimiter rph bd eth emult)).delay_multiplier =
      (if n = 0 then 1 else if n = 1 then 3/2 else if n = 2 then 2 else 3) ∧
    (record_success (record_failure^[n] (initLimiter rph bd eth emult))).emergency_mode
      = false := by
  obtain ⟨hcf, hem, hdm, -⟩ := record_failure_iter rph bd eth emult n
  refine ⟨hcf, ?_, hdm, ?_⟩
  · rw [hem]; simp
  · unfold record_success
    split <;> simp

/-- C2: `should_circuit_break` is true exactly when `consecutive_failures` has
reached twice `emergency_threshold`; with `emergency_threshold = 3` it is
false after 5 consecutive failures and true after 6.  (In the source the
method only reads state and logs; it is embedded as a pure function.) -/
theorem C2_circuit_break (s : RateLimiterState) (rph : Nat) (bd : ℚ) (emult : ℚ) :
    (should_circuit_break s = true ↔ s.emergency_threshold * 2 ≤ s.consecutive_failures) ∧
    should_circuit_break (record_failure^[5] (initLimiter rph bd 3 emult)) = false ∧
    should_circuit_break (record_failure^[6] (initLimiter rph bd 3 emult)) = true := by
  refine ⟨by simp [should_circuit_break], ?_, ?_⟩
  · obtain ⟨hcf, -, -, heth⟩ := record_failure_iter rph bd 3 emult 5
    simp only [should_circuit_break, hcf, heth]
    decide
  · obtain ⟨hcf, -, -, heth⟩ := record_failure_iter rph bd 3 emult 6
    simp only [should_circuit_break, hcf, heth]
    decide

lemma insertSorted_length (x : ℚ) (l : List ℚ) :
    (insertSorted x l).length = l.length + 1 := by
  induction l with
  | nil => rfl
  | cons y ys ih =>
    unfold insertSorted
    split_ifs <;> simp [ih]

lemma sortQ_length (l : List ℚ) : (sortQ l).length = l.length := by
  induction l with
  | nil => rfl
  | cons x xs ih => simp [sortQ, insertSorted_length, ih]

/-- C6: `detect_quota_window` gives no estimate with fewer than 10 recorded
successes, and none when fewer than 5 under-one-hour deltas remain after
discarding the others; 20 perfectly periodic successes at a 300 s interval
yield an estimate (the modal bin center 300.025) within 1 s of 300. -/
theorem C6_detect_window :
    (∀ ts : List ℚ, ts.length < 10 → detect_quota_window ts = none) ∧
    (∀ ts : List ℚ, (filteredDeltas ts).length < 5 → detect_quota_window ts = none) ∧
    detect_quota_window ((List.range 20).map (fun i => (300 : ℚ) * i)) = some (12001/40) ∧
    |(12001/40 : ℚ) - 300| ≤ 1 := by
  refine ⟨?_, ?_, ?_, by rw [abs_le]; constructor <;> norm_num⟩
  · intro ts h
    unfold detect_quota_window
    rw [if_pos h]
  · intro ts h
    by_cases h10 : ts.length < 10
    · unfold detect_quota_window
      rw [if_pos h10]
    · unfold detect_quota_window
      rw [if_neg h10, if_pos h]
  · have hA : (List.range 20).map (fun i => (300 : ℚ) * i) =
        [0, 300, 600, 900, 1200, 1500, 1800, 2100, 2400, 2700, 3000,
         3300, 3600, 3900, 4200, 4500, 4800, 5100, 5400, 5700] := by
      simp [List.range_succ]
      norm_num
    have hS : sortQ [0, 300, 600, 900, 1200, 1500, 1800, 2100, 2400, 2700, 3000,
        3300, 3600, 3900, 4200, 4500, 4800, 5100, 5400, (5700 : ℚ)] =
        [0, 300, 600, 900, 1200, 1500, 1800, 2100, 2400, 2700, 3000,
         3300, 3600, 3900, 4200, 4500, 4800, 5100, 5400, 5700] := by
      norm_num [sortQ, insertSorted]
    have hfd : filteredDeltas [0, 300, 600, 900, 1200, 1500, 1800, 2100, 2400, 2700, 3000,
        3300, 3600, 3900, 4200, 4500, 4800, 5100, 5400, (5700 : ℚ)] =
        [300, 300, 300, 300, 300, 300, 300, 300, 300, 300,
         300, 300, 300, 300, 300, 300, 300, 300, 300] := by
      simp only [filteredDeltas, hS]
      norm_num [List.zipWith, List.filter]
    have hmn : ([300, 300, 300, 300, 300, 300, 300, 300, 300, 300,
        300, 300, 300, 300, 300, 300, 300, 300, (300 : ℚ)].foldl min
        ([300, 300, 300, 300, 300, 300, 300, 300, 300, 300,
        300, 300, 300, 300, 300, 300, 300, 300, (300 : ℚ)].headD 0)) = 300 := by
      norm_num [List.foldl]
    have hmx : ([300, 300, 300, 300, 300, 300, 300, 300, 300, 300,
        300, 300, 300, 300, 300, 300, 300, 300, (300 : ℚ)].foldl max
        ([300, 300, 300, 300, 300, 300, 300, 300, 300, 300,
        300, 300, 300, 300, 300, 300, 300, 300, (300 : ℚ)].headD 0)) = 300 := by
      norm_num [List.foldl]
    have hbin : binIdx (599/2) (1/20) 300 = 10 := by
      have h10 : ⌊((300 : ℚ) - 599/2) / (1/20)⌋ = 10 := by norm_num
      simp only [binIdx, h10]
      decide
    have hhist : histCounts (599/2) (1/20)
        [300, 300, 300, 300, 300, 300, 300, 300, 300, 300,
         300, 300, 300, 300, 300, 300, 300, 300, (300 : ℚ)] =
        [0, 0, 0, 0, 0, 0, 0, 0, 0, 0, 19, 0, 0, 0, 0, 0, 0, 0, 0, 0] := by
      simp only [histCounts, List.range_succ]
      norm_num [List.filter, hbin]
    have hargmax : argmaxFirst [0, 0, 0, 0, 0, 0, 0, 0, 0, 0, 19, 0, 0, 0, 0, 0, 0, 0, 0, 0]
        = 10 := by decide
    rw [hA]
    simp only [detect_quota_window, hfd]
    rw [if_neg (by norm_num), if_neg (by norm_num), hmn, hmx, if_pos rfl, if_pos rfl]
    norm_num
    rw [hhist, hargmax]
    norm_num

/-- Witness for C6: the empty history trips the 10-success guard; ten
successes spaced 4000 s apart pass it but leave no under-one-hour deltas,
tripping the 5-delta guard. -/
theorem C6_detect_window_witness :
    (([] : List ℚ).length < 10 ∧ detect_quota_window [] = none) ∧
    ((filteredDeltas [0, 4000, 8000, 12000, 16000, 20000, 24000, 28000, 32000,
        36000]).length < 5 ∧
     detect_quota_window [0, 4000, 8000, 12000, 16000, 20000, 24000, 28000, 32000,
        36000] = none) := by
  have h1 : ([] : List ℚ).length < 10 := by norm_num
  have h2 : (filteredDeltas [0, 4000, 8000, 12000, 16000, 20000, 24000, 28000, 32000,
      (36000 : ℚ)]).length < 5 := by
    norm_num [filteredDeltas, sortQ, insertSorted, List.zipWith, List.filter]
  exact ⟨⟨h1, C6_detect_window.1 [] h1⟩, ⟨h2, C6_detect_window.2.1 _ h2⟩⟩

/-- C9 counterexample: on the 20-element window `[1, …, 20]` the source
returns the 20th smallest value (20), not the `⌈0.95 · 20⌉ = 19`-th smallest
(19) that the claim's nearest-rank rule gives. -/
theorem C9_p95_counterexample :
    get_p95_response_time ((List.range 20).map (fun i => ((i : ℚ) + 1))) = 20 ∧
    kthSmallest ((List.range 20).map (fun i => ((i : ℚ) + 1))) 19 = 19 ∧
    (20 : ℚ) ≠ 19 := by
  refine ⟨?_, ?_, by norm_num⟩ <;>
    norm_num [get_p95_response_time, kthSmallest, sortQ, insertSorted,
      List.range_succ]

/-- C9 (amended): over a nonempty window of `n` retained response times the
collector returns the `(⌊0.95·n⌋ + 1)`-th smallest value, with no
interpolation; this equals the `⌈0.95·n⌉`-th smallest exactly when `n` is
not a multiple of 20 (at multiples of 20 the returned rank is `0.95·n + 1`);
with an empty window it returns 0. -/
theorem C9_p95_nearest_rank (l : List ℚ) :
    (get_p95_response_time [] = 0) ∧
    (l ≠ [] → get_p95_response_time l = kthSmallest l (l.length * 19 / 20 + 1)) ∧
    (l ≠ [] → ¬ (20 ∣ l.length) →
      get_p95_response_time l = kthSmallest l ((l.length * 19 + 19) / 20)) := by
  have hmain : l ≠ [] → get_p95_response_time l = kthSmallest l (l.length * 19 / 20 + 1) := by
    intro hne
    have hn : 0 < l.length := List.length_pos.mpr hne
    have hidx : (sortQ l).length * 19 / 20 < (sortQ l).length := by
      rw [sortQ_length]; omega
    unfold get_p95_response_time kthSmallest
    rw [if_neg (by simp [hne]), if_pos hidx, sortQ_length]
    simp
  refine ⟨by rfl, hmain, ?_⟩
  intro hne hdvd
  rw [hmain hne]
  congr 1
  have h19 : ¬ (20 ∣ l.length * 19) := fun hd2 =>
    hdvd (Nat.Coprime.dvd_of_dvd_mul_right (by decide) hd2)
  omega

/-- The last element of `drop` is the last element of the list itself, as
long as something is dropped short of the whole list. -/
lemma getLastD_drop (l : List TuningRecord) (k : Nat) (d : TuningRecord)
    (h : k < l.length) : (l.drop k).getLastD d = l.getLastD d := by
  rw [List.getLastD_eq_getLast?, List.getLastD_eq_getLast?, List.getLast?_drop,
    if_neg (by omega)]

/-- C7: `auto_tune` returns nothing on fewer than 5 sessions; otherwise, with
`avg` the mean success rate over the last (up to) 10 sessions and `d` the
most recent session's base delay: below 80 it recommends `d + 2`, above 95
with `d > 5` it recommends `max 5 (d - 1)`, and otherwise nothing. -/
theorem C7_auto_tune (h : List TuningRecord) :
    (h.length < 5 → auto_tune h = none) ∧
    (5 ≤ h.length →
      ((((h.drop (h.length - 10)).map TuningRecord.success_rate).sum /
          ((h.drop (h.length - 10)).length) < 80 →
        auto_tune h = some ((h.getLastD ⟨15, 150, 0, 0, 0⟩).base_delay + 2)) ∧
      (¬ ((h.drop (h.length - 10)).map TuningRecord.success_rate).sum /
          ((h.drop (h.length - 10)).length) < 80 →
        95 < ((h.drop (h.length - 10)).map TuningRecord.success_rate).sum /
          ((h.drop (h.length - 10)).length) →
        5 < (h.getLastD ⟨15, 150, 0, 0, 0⟩).base_delay →
        auto_tune h = some (max 5 ((h.getLastD ⟨15, 150, 0, 0, 0⟩).base_delay - 1))) ∧
      (¬ ((h.drop (h.length - 10)).map TuningRecord.success_rate).sum /
          ((h.drop (h.length - 10)).length) < 80 →
        ¬ (95 < ((h.drop (h.length - 10)).map TuningRecord.success_rate).sum /
            ((h.drop (h.length - 10)).length) ∧
           5 < (h.getLastD ⟨15, 150, 0, 0, 0⟩).base_delay) →
        auto_tune h = none))) := by
  constructor
  · intro hlt
    unfold auto_tune
    rw [if_pos hlt]
  · intro hge
    have hlast : (h.drop (h.length - 10)).getLastD ⟨15, 150, 0, 0, 0⟩ =
        h.getLastD ⟨15, 150, 0, 0, 0⟩ :=
      getLastD_drop h (h.length - 10) _ (by omega)
    refine ⟨?_, ?_, ?_⟩
    · intro havg
      simp only [auto_tune]
      rw [if_neg (by omega), if_pos havg, hlast]
    · intro havg1 havg2 hd
      simp only [auto_tune]
      rw [if_neg (by omega), if_neg havg1,
        if_pos ⟨havg2, by rw [hlast]; exact hd⟩, hlast]
    · intro havg1 havg2
      simp only [auto_tune]
      rw [if_neg (by omega), if_neg havg1,
        if_neg (by rw [hlast]; exact havg2)]

/-- Witness for C7: ten sessions with success rate 70 and base delay 10 give
the slow-down recommendation 12. -/
theorem C7_auto_tune_witness :
    5 ≤ (List.replicate 10 (TuningRecord.mk 10 150 70 2 0)).length ∧
    (((List.replicate 10 (TuningRecord.mk 10 150 70 2 0)).drop
        ((List.replicate 10 (TuningRecord.mk 10 150 70 2 0)).length - 10)).map
        TuningRecord.success_rate).sum /
      (((List.replicate 10 (TuningRecord.mk 10 150 70 2 0)).drop
        ((List.replicate 10 (TuningRecord.mk 10 150 70 2 0)).length - 10)).length) < 80 ∧
    auto_tune (List.replicate 10 (TuningRecord.mk 10 150 70 2 0)) =
      some (((List.replicate 10 (TuningRecord.mk 10 150 70 2 0)).getLastD
        ⟨15, 150, 0, 0, 0⟩).base_delay + 2) := by
  have h80 : (((List.replicate 10 (TuningRecord.mk 10 150 70 2 0)).drop
      ((List.replicate 10 (TuningRecord.mk 10 150 70 2 0)).length - 10)).map
      TuningRecord.success_rate).sum /
      (((List.replicate 10 (TuningRecord.mk 10 150 70 2 0)).drop
      ((List.replicate 10 (TuningRecord.mk 10 150 70 2 0)).length - 10)).length) < 80 := by
    norm_num [List.replicate, List.map, List.sum_cons]
  exact ⟨by simp, h80,
    ((C7_auto_tune (List.replicate 10 (TuningRecord.mk 10 150 70 2 0))).2
      (by simp)).1 h80⟩

/-- Witness for C9 (amended) on the five-element window `[1, …, 5]` (5 is not
a multiple of 20): the collector returns the 5th smallest value. -/
theorem C9_p95_witness :
    ([1, 2, 3, 4, (5 : ℚ)] ≠ []) ∧ ¬ (20 ∣ [1, 2, 3, 4, (5 : ℚ)].length) ∧
    get_p95_response_time [1, 2, 3, 4, 5] =
      kthSmallest [1, 2, 3, 4, 5] ([1, 2, 3, 4, (5 : ℚ)].length * 19 / 20 + 1) ∧
    get_p95_response_time [1, 2, 3, 4, 5] =
      kthSmallest [1, 2, 3, 4, 5] (([1, 2, 3, 4, (5 : ℚ)].length * 19 + 19) / 20) :=
  ⟨by simp, by norm_num,
   (C9_p95_nearest_rank [1, 2, 3, 4, 5]).2.1 (by simp),
   (C9_p95_nearest_rank [1, 2, 3, 4, 5]).2.2 (by simp) (by norm_num)⟩

end Trendspy
